import Mathlib

/-!
Verification development for the Mallard_Visualizer repository.

The C++ sources are shallowly embedded here: C `float` arithmetic is
modelled exactly over `ℚ` (all theorems below evaluate the embedded
functions only at points where float and exact arithmetic agree on the
claimed properties), 16-bit PCM samples are modelled as `ℤ`, and the
mutable state of each visual mode (ring buffer indices, smoothed levels,
particle lists) is passed explicitly.
-/

set_option maxRecDepth 20000

/-- Model of C `sqrtf`, used by the embedded RMS computations.  It is exact
on `0` and on perfect-square rationals, which are the only points at which
the theorems below evaluate it. -/
def sqrtQ (q : ℚ) : ℚ := (Int.sqrt q.num : ℚ) / (Nat.sqrt q.den : ℚ)

theorem sqrtQ_zero : sqrtQ 0 = 0 := by
  simp [sqrtQ]

/-- Number of sample frames per audio block (`BUFFER_FRAMES` in
`config_parser.h`). -/
def BUFFER_FRAMES : Nat := 256

/-- `TOTAL_SAMPLES = BUFFER_FRAMES * 2` (stereo interleaved), from
`oscilloscope.cpp`. -/
def TOTAL_SAMPLES : Nat := BUFFER_FRAMES * 2

/-- The clamp performed by `selectColorByAmplitude`
(`visualizer.cpp` line 290): `std::max(0.0f, std::min(1.0f, amp))`. -/
def clampAmplitude (a : ℚ) : ℚ := max 0 (min 1 a)

/-- The color index computed by `selectColorByAmplitude`
(`visualizer.cpp` line 291): `static_cast<int>(amp * (size - 1))`.
The cast truncates toward zero; the operand is nonnegative, so this is
the floor.  `M` is the ramp size (the guarded path has `M ≥ 1`). -/
def colorIdx (a : ℚ) (M : Nat) : ℤ := ⌊clampAmplitude a * ((M : ℚ) - 1)⌋

/-- `selectColorByAmplitude` (`visualizer.cpp` lines 288-293): returns the
default pair id 1 on an empty ramp, otherwise indexes the ramp by
`colorIdx`. -/
def selectColorByAmplitude (a : ℚ) (colorPairIDs : List ℤ) : ℤ :=
  if colorPairIDs = [] then 1
  else colorPairIDs.getD (colorIdx a colorPairIDs.length).toNat 0

/-- `getIntersectionDist` (`visualizer.cpp` lines 306-315): 2D parametric
ray/segment intersection; `-1` encodes "no intersection"; the degeneracy
threshold is the literal `1e-6`. -/
def getIntersectionDist (rayX rayY p1x p1y p2x p2y : ℚ) : ℚ :=
  let segX := p2x - p1x
  let segY := p2y - p1y
  let det := rayX * segY - rayY * segX
  if |det| < 1 / 1000000 then -1
  else
    let t := (p1x * segY - p1y * segX) / det
    let u := (p1x * rayY - p1y * rayX) / det
    if 0 < t ∧ 0 ≤ u ∧ u ≤ 1 then t else -1

/-- One asymmetric rise/fall update of a smoothed level, as in
`drawVuMeter` (`visualizer.cpp` lines 523-527) and `drawBarGraph`
(lines 582-584): rise `level += (signal - level) * riseFactor`, fall
`level = max(0, level - decayStep)` where `decayStep` is the global
`decay__factor` (default `0.025`, configurable). -/
def levelStep (riseFactor decayStep signal level : ℚ) : ℚ :=
  if signal > level then level + (signal - level) * riseFactor
  else max 0 (level - decayStep)

/-- Closed form of sustained-zero decay: iterating the fall branch from a
nonnegative level subtracts `decayStep` per tick, clamped at zero. -/
theorem levelStep_zero_iterate (rf d : ℚ) (hd : 0 ≤ d) :
    ∀ (n : Nat) (l : ℚ), 0 ≤ l →
      (levelStep rf d 0)^[n] l = max 0 (l - n * d) := by
  intro n
  induction n with
  | zero => intro l hl; simp [max_eq_right hl]
  | succ n ih =>
    intro l hl
    have hstep : levelStep rf d 0 l = max 0 (l - d) := by
      simp only [levelStep]
      rw [if_neg (by exact hl.not_lt)]
    rw [Function.iterate_succ_apply, hstep, ih _ (le_max_left _ _)]
    have hnd : 0 ≤ (n : ℚ) * d := mul_nonneg (by positivity) hd
    rcases le_total d l with h | h
    · rw [max_eq_right (by linarith : (0:ℚ) ≤ l - d)]
      have harith : l - d - (n : ℚ) * d = l - ((n + 1 : Nat) : ℚ) * d := by
        push_cast
        ring
      rw [harith]
    · rw [max_eq_left (by linarith : l - d ≤ 0)]
      rw [max_eq_left (by linarith : (0:ℚ) - (n : ℚ) * d ≤ 0), max_eq_left]
      push_cast
      nlinarith

/-- C5: when the incoming signal is not above the current level the update
is `level = max(0, level - decayStep)`; a nonnegative level stays
nonnegative under any signal; and from any `level₀ > 0`, sustained-zero
input reaches exactly 0 after `⌈level₀ / decayStep⌉` ticks (and is still
strictly positive at every earlier tick). -/
theorem temporalSmoother_fall_decay (rf d signal level l₀ : ℚ)
    (hsig : signal ≤ level)
    (hd : 0 < d) (hl : 0 < l₀) :
    levelStep rf d signal level = max 0 (level - d) ∧
    0 ≤ levelStep rf d signal level ∧
    (levelStep rf d 0)^[(⌈l₀ / d⌉).toNat] l₀ = 0 ∧
    (∀ m : Nat, m < (⌈l₀ / d⌉).toNat → 0 < (levelStep rf d 0)^[m] l₀) := by
  refine ⟨?_, ?_, ?_, ?_⟩
  · simp only [levelStep]
    rw [if_neg (by exact hsig.not_lt)]
  · simp only [levelStep]
    split
    · nlinarith
    · exact le_max_left _ _
  · rw [levelStep_zero_iterate rf d hd.le _ l₀ hl.le]
    have h2 : (0 : ℤ) ≤ ⌈l₀ / d⌉ := by positivity
    have hceil : l₀ / d ≤ ((⌈l₀ / d⌉).toNat : ℚ) := by
      calc l₀ / d ≤ (⌈l₀ / d⌉ : ℚ) := Int.le_ceil _
        _ = ((⌈l₀ / d⌉).toNat : ℚ) := by exact_mod_cast (Int.toNat_of_nonneg h2).symm
    have hle : l₀ - ((⌈l₀ / d⌉).toNat : ℚ) * d ≤ 0 := by
      have := (div_le_iff₀ hd).mp hceil
      linarith
    simp [max_eq_left hle]
  · intro m hm
    rw [levelStep_zero_iterate rf d hd.le _ l₀ hl.le]
    have hmz : (m : ℤ) < ⌈l₀ / d⌉ := Int.lt_toNat.mp hm
    have hmq : (m : ℚ) < l₀ / d := by exact_mod_cast Int.lt_ceil.mp hmz
    have hpos : 0 < l₀ - (m : ℚ) * d := by
      have := (lt_div_iff₀ hd).mp hmq
      linarith
    calc (0 : ℚ) < l₀ - (m : ℚ) * d := hpos
      _ ≤ max 0 (l₀ - (m : ℚ) * d) := le_max_right _ _

/-- Witness for C5 at `riseFactor = 3/5`, `decayStep = 1/40`,
`signal = 0`, `level = level₀ = 1/10`: `⌈(1/10)/(1/40)⌉ = 4` ticks. -/
theorem temporalSmoother_fall_decay_witness :
    levelStep (3/5) (1/40) 0 (1/10) = max 0 ((1/10 : ℚ) - 1/40) ∧
    0 ≤ levelStep (3/5) (1/40) 0 (1/10) ∧
    (levelStep (3/5) (1/40) 0)^[(⌈(1/10 : ℚ) / (1/40)⌉).toNat] (1/10) = 0 ∧
    (∀ m : Nat, m < (⌈(1/10 : ℚ) / (1/40)⌉).toNat →
      0 < (levelStep (3/5) (1/40) 0)^[m] (1/10)) :=
  temporalSmoother_fall_decay (3/5) (1/40) 0 (1/10) (1/10)
    (by norm_num) (by norm_num) (by norm_num)

/-- C4: for every ramp size `M ≥ 1`, amplitude `0` selects index `0`,
amplitude `1` selects index `M - 1`, and for every rational amplitude the
selected index lies in `[0, M)`. -/
theorem colorRamp_index_bounds (M : Nat) (hM : 1 ≤ M) :
    colorIdx 0 M = 0 ∧
    colorIdx 1 M = (M : ℤ) - 1 ∧
    (∀ a : ℚ, 0 ≤ colorIdx a M ∧ colorIdx a M < (M : ℤ)) := by
  have hM1 : (0 : ℚ) ≤ (M : ℚ) - 1 := by
    have : (1 : ℚ) ≤ (M : ℚ) := by exact_mod_cast hM
    linarith
  refine ⟨?_, ?_, ?_⟩
  · simp [colorIdx, clampAmplitude]
  · have hc : clampAmplitude 1 = 1 := by simp [clampAmplitude]
    rw [colorIdx, hc, one_mul]
    rw [show (M : ℚ) - 1 = (((M : ℤ) - 1 : ℤ) : ℚ) by push_cast; ring]
    exact Int.floor_intCast _
  · intro a
    have hc0 : 0 ≤ clampAmplitude a := le_max_left _ _
    have hc1 : clampAmplitude a ≤ 1 := by
      simp only [clampAmplitude]
      rw [max_le_iff]
      exact ⟨zero_le_one, min_le_left _ _⟩
    constructor
    · have : (0 : ℚ) ≤ clampAmplitude a * ((M : ℚ) - 1) := mul_nonneg hc0 hM1
      exact_mod_cast Int.le_floor.mpr (by exact_mod_cast this)
    · simp only [colorIdx]
      have hle : clampAmplitude a * ((M : ℚ) - 1) ≤ (M : ℚ) - 1 := by
        nlinarith
      have h3 : ⌊clampAmplitude a * ((M : ℚ) - 1)⌋ ≤ ⌊(M : ℚ) - 1⌋ :=
        Int.floor_le_floor hle
      have h4 : ⌊(M : ℚ) - 1⌋ = (M : ℤ) - 1 := by
        rw [show (M : ℚ) - 1 = (((M : ℤ) - 1 : ℤ) : ℚ) by push_cast; ring,
          Int.floor_intCast]
      omega

/-- Witness for C4 at `M = 3`. -/
theorem colorRamp_index_bounds_witness :
    colorIdx 0 3 = 0 ∧ colorIdx 1 3 = (3 : ℤ) - 1 ∧
    (∀ a : ℚ, 0 ≤ colorIdx a 3 ∧ colorIdx a 3 < (3 : ℤ)) :=
  colorRamp_index_bounds 3 (by norm_num)

/-- C7: the ray along the positive x-axis from the origin against the
segment from `(1,1)` to `(1,-1)` intersects at distance exactly `1`, and
every ray/segment pair whose determinant is below the `1e-6` degeneracy
threshold in absolute value reports no intersection (`-1`). -/
theorem raySegment_intersection (rx ry ax ay bx cy : ℚ)
    (hdet : |rx * (cy - ay) - ry * (bx - ax)| < 1 / 1000000) :
    getIntersectionDist 1 0 1 1 1 (-1) = 1 ∧
    getIntersectionDist rx ry ax ay bx cy = -1 := by
  constructor
  · norm_num [getIntersectionDist]
  · simp only [getIntersectionDist]
    rw [if_pos hdet]

/-- Witness for C7: the degenerate pair with all coordinates zero has
determinant `0 < 1e-6` and reports no intersection. -/
theorem raySegment_intersection_witness :
    getIntersectionDist 1 0 1 1 1 (-1) = 1 ∧
    getIntersectionDist 0 0 0 0 0 0 = -1 :=
  raySegment_intersection 0 0 0 0 0 0 (by norm_num)

/-- Peak accumulation from `drawVuMeter`'s `VU_PEAK` branch
(`visualizer.cpp` lines 507-511): running maximum of absolute sample
values, starting from 0. -/
def peakAccum (data : List ℤ) : ℤ :=
  data.foldl (fun acc s => if |s| > acc then |s| else acc) 0

/-- Normalized peak level (`visualizer.cpp` lines 512-513):
`peak / 32767`. -/
def vuPeakLevel (data : List ℤ) : ℚ := ((peakAccum data : ℤ) : ℚ) / 32767

/-- A synthetic frame holding a single full-scale impulse
(`BUFFER_FRAMES = 256` samples, one channel). -/
def impulseFrame : List ℤ := 32767 :: List.replicate 255 0

/-- C6: the full-scale impulse frame through the peak analysis and one
rise update (rise factor `0.6`, decay step `0.025`) from level 0 yields
exactly `0.6`; each subsequent all-silent tick, while the level is still
positive (the first 24 ticks, since `0.6 / 0.025 = 24`), lowers the level
by exactly `0.025`. -/
theorem peakAccum_replicate_zero :
    ∀ (n : Nat) (acc : ℤ), 0 ≤ acc →
      (List.replicate n (0 : ℤ)).foldl
        (fun acc s => if |s| > acc then |s| else acc) acc = acc := by
  intro n
  induction n with
  | zero => intro acc _; rfl
  | succ n ih =>
    intro acc h
    rw [List.replicate_succ, List.foldl_cons]
    have hstep : (if |(0 : ℤ)| > acc then |(0 : ℤ)| else acc) = acc := by
      rw [if_neg]
      simpa using h
    rw [hstep]
    exact ih acc h

theorem impulse_rise_then_linear_decay :
    levelStep (3/5) (1/40) (vuPeakLevel impulseFrame) 0 = 3/5 ∧
    (∀ n : Nat, n < 24 →
      (levelStep (3/5) (1/40) 0)^[n + 1]
          (levelStep (3/5) (1/40) (vuPeakLevel impulseFrame) 0) =
        (levelStep (3/5) (1/40) 0)^[n]
          (levelStep (3/5) (1/40) (vuPeakLevel impulseFrame) 0) - 1/40) := by
  have hpeak : peakAccum impulseFrame = 32767 := by
    rw [impulseFrame, peakAccum, List.foldl_cons]
    norm_num
    exact peakAccum_replicate_zero 255 32767 (by norm_num)
  have hlevel : vuPeakLevel impulseFrame = 1 := by
    rw [vuPeakLevel, hpeak]
    norm_num
  have h1 : levelStep (3/5) (1/40) (vuPeakLevel impulseFrame) 0 = 3/5 := by
    rw [hlevel]
    norm_num [levelStep]
  refine ⟨h1, ?_⟩
  intro n hn
  rw [h1, levelStep_zero_iterate (3/5) (1/40) (by norm_num) (n + 1) (3/5) (by norm_num),
    levelStep_zero_iterate (3/5) (1/40) (by norm_num) n (3/5) (by norm_num)]
  have hq : ((n : ℚ) + 1) * (1/40) ≤ 3/5 := by
    have : (n : ℚ) ≤ 23 := by exact_mod_cast Nat.lt_succ_iff.mp hn
    linarith
  rw [max_eq_right (by push_cast; linarith), max_eq_right (by linarith)]
  push_cast
  ring

/-- Witness for C6 at the silent tick `n = 5`. -/
theorem impulse_rise_then_linear_decay_witness :
    (levelStep (3/5) (1/40) 0)^[6]
        (levelStep (3/5) (1/40) (vuPeakLevel impulseFrame) 0) =
      (levelStep (3/5) (1/40) 0)^[5]
        (levelStep (3/5) (1/40) (vuPeakLevel impulseFrame) 0) - 1/40 :=
  (impulse_rise_then_linear_decay).2 5 (by norm_num)

/-- An interleaved stereo block as handed to `RingBuffer::write`
(`TOTAL_SAMPLES = 512` machine words; modelled as a list of samples). -/
abbrev Frame := List ℤ

/-- `BUFFER_COUNT` from `oscilloscope.cpp` line 79: the ring capacity. -/
def BUFFER_COUNT : Nat := 4

/-- The SPSC ring buffer state (`oscilloscope.cpp` lines 48-83): a
4-slot circular array plus head and tail indices.  The indices start at 0
and every store is reduced `% BUFFER_COUNT`, so they are always `< 4`. -/
structure RingBuffer where
  buf : List Frame
  head : Nat
  tail : Nat

/-- The zero-initialised ring (`m_buffer[...] = {{0}}`, `m_head = 0`,
`m_tail = 0`). -/
def RingBuffer.init : RingBuffer :=
  ⟨List.replicate BUFFER_COUNT (List.replicate TOTAL_SAMPLES 0), 0, 0⟩

/-- `RingBuffer::write` (`oscilloscope.cpp` lines 52-60): copy the frame
into the slot at the current head, then advance head modulo the capacity.
The collision check against the tail has an empty body in the source and
is therefore absent here. -/
def RingBuffer.write (rb : RingBuffer) (data : Frame) : RingBuffer :=
  ⟨rb.buf.set rb.head data, (rb.head + 1) % BUFFER_COUNT, rb.tail⟩

/-- The deinterleaving loop of `RingBuffer::read` (`oscilloscope.cpp`
lines 69-72): `destLeft[i] = src[2i]`, `destRight[i] = src[2i+1]`. -/
def deinterleave (src : Frame) : List ℤ × List ℤ :=
  ((List.range BUFFER_FRAMES).map fun i => src.getD (i * 2) 0,
   (List.range BUFFER_FRAMES).map fun i => src.getD (i * 2 + 1) 0)

/-- `RingBuffer::read` (`oscilloscope.cpp` lines 62-76): if tail equals
head, report no new data and leave everything untouched; otherwise copy
out the slot at tail deinterleaved and advance tail modulo the capacity. -/
def RingBuffer.read (rb : RingBuffer) (destLeft destRight : List ℤ) :
    Bool × RingBuffer × List ℤ × List ℤ :=
  if rb.tail = rb.head then (false, rb, destLeft, destRight)
  else
    let src := rb.buf.getD rb.tail []
    (true, ⟨rb.buf, rb.head, (rb.tail + 1) % BUFFER_COUNT⟩,
      (deinterleave src).1, (deinterleave src).2)

/-- A sequence of producer writes with no intervening read. -/
def writeSeq (rb : RingBuffer) (frames : List Frame) : RingBuffer :=
  frames.foldl RingBuffer.write rb

/-- Repeated consumer reads (at most `fuel` of them), collecting the
deinterleaved frames until `read` reports no new data. -/
def drain : Nat → RingBuffer → List (List ℤ × List ℤ) × RingBuffer
  | 0, rb => ([], rb)
  | n + 1, rb =>
    let r := rb.read (List.replicate BUFFER_FRAMES 0) (List.replicate BUFFER_FRAMES 0)
    if r.1 then
      let rest := drain n r.2.1
      (r.2.2 :: rest.1, rest.2)
    else ([], rb)

/-- A concrete frame whose 512 samples all equal `v`. -/
def cFrame (v : ℤ) : Frame := List.replicate TOTAL_SAMPLES v

/-- C3: `read` returns "no new data" exactly when tail equals head, and
in that case the buffer state and both destination buffers are returned
unchanged. -/
theorem ringBuffer_read_empty (rb : RingBuffer) (dL dR : List ℤ) :
    ((rb.read dL dR).1 = false ↔ rb.tail = rb.head) ∧
    (rb.tail = rb.head → rb.read dL dR = (false, rb, dL, dR)) := by
  constructor
  · simp only [RingBuffer.read]
    split <;> simp_all
  · intro h
    simp [RingBuffer.read, h]

/-- Witness for C3 on the freshly initialised (empty) ring. -/
theorem ringBuffer_read_empty_witness :
    RingBuffer.init.read [] [] = (false, RingBuffer.init, [], []) :=
  (ringBuffer_read_empty RingBuffer.init [] []).2 rfl

/-- C1 evaluation at the failing input: writing `capacity + 1 = 5`
distinct frames into a fresh ring leaves head = 1, tail = 0, so repeated
reads recover only the single most recent frame (frame 5) — not the most
recent four as the overrun policy claims.  After the fourth write the
head wrapped onto the unread tail, making the buffer indistinguishable
from empty. -/
theorem ringBuffer_overrun_eval :
    (writeSeq RingBuffer.init
        [cFrame 1, cFrame 2, cFrame 3, cFrame 4, cFrame 5]).head = 1 ∧
    (writeSeq RingBuffer.init
        [cFrame 1, cFrame 2, cFrame 3, cFrame 4, cFrame 5]).tail = 0 ∧
    (drain BUFFER_COUNT (writeSeq RingBuffer.init
        [cFrame 1, cFrame 2, cFrame 3, cFrame 4, cFrame 5])).1 =
      [deinterleave (cFrame 5)] :=
  ⟨rfl, rfl, rfl⟩

/-- C2 counterexample: writing exactly `capacity = 4` frames into a fresh
ring and then reading recovers nothing at all (head wrapped onto tail),
so the claimed FIFO recovery fails at a write count equal to the
capacity. -/
theorem ringBuffer_fifo_at_capacity_counterexample :
    ¬ ((drain BUFFER_COUNT (writeSeq RingBuffer.init
          [cFrame 1, cFrame 2, cFrame 3, cFrame 4])).1 =
        [cFrame 1, cFrame 2, cFrame 3, cFrame 4].map deinterleave) := by
  intro h
  have h0 : (drain BUFFER_COUNT (writeSeq RingBuffer.init
      [cFrame 1, cFrame 2, cFrame 3, cFrame 4])).1 = [] := rfl
  rw [h0] at h
  simp at h

/-- C2 amended: for any sequence of strictly fewer than `capacity` writes
into a fresh ring, repeated reads return all frames in FIFO order, each
bit-identical (after deinterleaving) to the frame written. -/
theorem ringBuffer_fifo_below_capacity (fs : List Frame)
    (h : fs.length < BUFFER_COUNT) :
    (drain BUFFER_COUNT (writeSeq RingBuffer.init fs)).1 =
      fs.map deinterleave := by
  rcases fs with _ | ⟨a, _ | ⟨b, _ | ⟨c, _ | ⟨d, t⟩⟩⟩⟩
  · rfl
  · rfl
  · rfl
  · rfl
  · exfalso
    simp [BUFFER_COUNT] at h
    omega

/-- Witness for the amended C2 with one written frame. -/
theorem ringBuffer_fifo_below_capacity_witness :
    (drain BUFFER_COUNT (writeSeq RingBuffer.init [cFrame 7])).1 =
      [cFrame 7].map deinterleave :=
  ringBuffer_fifo_below_capacity [cFrame 7] (by decide)

/-- Space/tab predicate used by the config parser's trimming
(`find_first_not_of(" \t")` in `ConfigParser::parse`). -/
def isSpaceTab (c : Char) : Bool := c = ' ' || c = '\t'

/-- Trim leading and trailing spaces/tabs from one configuration line. -/
def trimChars (l : List Char) : List Char :=
  ((l.dropWhile isSpaceTab).reverse.dropWhile isSpaceTab).reverse

/-- Split a line at the first occurrence of `c` (`std::string::find` plus
the two `substr` calls); `none` when `c` does not occur. -/
def splitFirst (c : Char) (l : List Char) : Option (List Char × List Char) :=
  match l.dropWhile (fun x => x ≠ c) with
  | [] => none
  | _ :: t => some (l.takeWhile (fun x => x ≠ c), t)

/-- `ConfigParser::parseColor` (`src/unnamed/part_002`): the eight named
ncurses colors, `-1` for anything else. -/
def parseColor (s : List Char) : ℤ :=
  if s = ("black").toList then 0
  else if s = ("red").toList then 1
  else if s = ("green").toList then 2
  else if s = ("yellow").toList then 3
  else if s = ("blue").toList then 4
  else if s = ("magenta").toList then 5
  else if s = ("cyan").toList then 6
  else if s = ("white").toList then 7
  else -1

/-- The line loop of `ConfigParser::parse` (`src/unnamed/part_002` lines
26-146), projected onto the `gradientColorPairs` it accumulates.  The
visualizer-block state machine (including the `shape = circle` lookahead
that may consume a following `points` line) is kept because it decides
which lines are even considered; the polygon, type and decay-factor side
effects never touch the gradient colors and are not tracked. -/
def parseLinesColors : Bool → List (List Char) → List (ℤ × ℤ)
  | _, [] => []
  | pv, l :: rest =>
    let line := trimChars l
    if line = [] then parseLinesColors pv rest
    else if line.headD ' ' = '#' then parseLinesColors pv rest
    else if pv then
      if line = ['\x7d'] then parseLinesColors false rest
      else
        match splitFirst '=' line with
        | none => parseLinesColors true rest
        | some (k, v) =>
          if trimChars k = ("shape").toList ∧ trimChars v = ("circle").toList then
            match _h : rest with
            | [] => []
            | l2 :: rest2 =>
              if ("points").toList.isPrefixOf (trimChars l2) then
                parseLinesColors true rest2
              else parseLinesColors true rest
          else parseLinesColors true rest
    else
      if (' ' ∈ line) ∧ line.takeWhile (fun x => x ≠ ' ') = ("new_visualizer").toList then
        if '\x7b' ∈ line then parseLinesColors true rest
        else parseLinesColors false rest
      else
        match splitFirst '=' line with
        | none => parseLinesColors false rest
        | some (k, v) =>
          if trimChars k = ("gradient_color").toList then
            match splitFirst ',' (trimChars v) with
            | none => parseLinesColors false rest
            | some (fgs, bgs) =>
              if parseColor fgs ≠ -1 ∧ parseColor bgs ≠ -1 then
                (parseColor fgs, parseColor bgs) :: parseLinesColors false rest
              else parseLinesColors false rest
          else parseLinesColors false rest
termination_by _ lines => lines.length
decreasing_by
  all_goals simp_all
  all_goals omega

/-- `ConfigParser::parse`'s final fallback (`src/unnamed/part_002` lines
143-145): a parse that completes with zero gradient colors gets one
default `(COLOR_GREEN, -1)` entry. -/
def parseGradientColors (lines : List (List Char)) : List (ℤ × ℤ) :=
  let ps := parseLinesColors false lines
  if ps = [] then [(2, -1)] else ps

/-- The gradient color pair contributed by one top-level (non-block)
configuration line, following the same path `ConfigParser::parse`
(`src/unnamed/part_002`) takes for it: trim, skip blank/comment lines,
split at the first `=`, require the key `gradient_color`, split the
trimmed value at the first comma, and require both color names to parse.
`none` marks every line that contributes no pair — in particular every
malformed entry (no `=`, no comma, or an unknown color name). -/
def gradientEntry (l : List Char) : Option (ℤ × ℤ) :=
  let line := trimChars l
  if line = [] then none
  else if line.headD ' ' = '#' then none
  else
    match splitFirst '=' line with
    | none => none
    | some (k, v) =>
      if trimChars k = ("gradient_color").toList then
        match splitFirst ',' (trimChars v) with
        | none => none
        | some (fgs, bgs) =>
          if parseColor fgs ≠ -1 ∧ parseColor bgs ≠ -1 then
            some (parseColor fgs, parseColor bgs)
          else none
      else none

/-- Whether a top-level line opens a `new_visualizer` block
(`src/unnamed/part_002`): it has a space, the text before the first space
is `new_visualizer`, and an opening brace occurs on the line. -/
def opensVisualizer (l : List Char) : Bool :=
  let line := trimChars l
  decide (' ' ∈ line) &&
    decide (line.takeWhile (fun x => x ≠ ' ') = ("new_visualizer").toList) &&
    decide ('\x7b' ∈ line)

/-- Every top-level line that neither contributes a well-formed
`gradient_color` pair nor opens a visualizer block — blank and comment
lines, and every malformed entry — is skipped individually: the parse of
the remaining lines is exactly the parse without that line. -/
theorem parseLinesColors_skip_line (l : List Char) (rest : List (List Char))
    (hge : gradientEntry l = none) (hov : opensVisualizer l = false) :
    parseLinesColors false (l :: rest) = parseLinesColors false rest := by
  rw [parseLinesColors.eq_def]
  by_cases h1 : trimChars l = []
  · simp [h1]
  · by_cases h2 : (trimChars l).headD ' ' = '#'
    · simp only [if_neg h1, if_pos h2]
    · simp only [if_neg h1, if_neg h2, Bool.false_eq_true, if_false]
      by_cases h3 : (' ' ∈ trimChars l) ∧
          (trimChars l).takeWhile (fun x => x ≠ ' ') = ("new_visualizer").toList
      · rw [if_pos h3]
        have hbrace : ¬ ('\x7b' ∈ trimChars l) := by
          intro hb
          have hvis : opensVisualizer l = true := by
            simp only [opensVisualizer]
            rw [decide_eq_true h3.1, decide_eq_true h3.2, decide_eq_true hb]
            rfl
          rw [hvis] at hov
          exact Bool.noConfusion hov
        rw [if_neg hbrace]
      · rw [if_neg h3]
        rcases h4 : splitFirst '=' (trimChars l) with _ | ⟨k, v⟩
        · simp [h4]
        · simp only [h4]
          by_cases h5 : trimChars k = ("gradient_color").toList
          · simp only [if_pos h5]
            rcases h6 : splitFirst ',' (trimChars v) with _ | ⟨fgs, bgs⟩
            · simp [h6]
            · simp only [h6]
              have h7 : ¬ (parseColor fgs ≠ -1 ∧ parseColor bgs ≠ -1) := by
                intro h7
                have hsome : gradientEntry l = some (parseColor fgs, parseColor bgs) := by
                  simp only [gradientEntry, if_neg h1, if_neg h2, h4, if_pos h5, h6,
                    if_pos h7]
                rw [hsome] at hge
                exact Option.noConfusion hge
              rw [if_neg h7]
          · rw [if_neg h5]

/-- C9: a parse that completes with zero gradient entries falls back to
exactly the single default entry `(COLOR_GREEN, -1)` — so the completed
result is never empty; every top-level line that is not a well-formed
`gradient_color` entry and does not open a visualizer block (in
particular, every malformed entry) is skipped individually, leaving the
parse of the remaining lines unchanged; and even an empty ColorRamp (as
left by a whole-file parse failure, whose `false` return the caller
ignores) cannot break color selection, which then returns the default
pair id 1. -/
theorem configParser_never_empty_ramp :
    (∀ lines : List (List Char), 1 ≤ (parseGradientColors lines).length) ∧
    (∀ lines : List (List Char), parseLinesColors false lines = [] →
        parseGradientColors lines = [(2, -1)]) ∧
    (∀ (l : List Char) (rest : List (List Char)), gradientEntry l = none →
        opensVisualizer l = false →
        parseLinesColors false (l :: rest) = parseLinesColors false rest) ∧
    (∀ a : ℚ, selectColorByAmplitude a [] = 1) := by
  refine ⟨?_, ?_, parseLinesColors_skip_line, ?_⟩
  · intro lines
    by_cases h : parseLinesColors false lines = []
    · simp [parseGradientColors, h]
    · simp only [parseGradientColors, if_neg h]
      exact Nat.one_le_iff_ne_zero.mpr (by simpa using h)
  · intro lines h
    simp [parseGradientColors, h]
  · intro a
    simp [selectColorByAmplitude]

/-- Witness for C9: the empty configuration falls back to exactly the
single default entry, and a concrete malformed entry (an unknown color
name) is skipped. -/
theorem configParser_never_empty_ramp_witness :
    parseGradientColors [] = [(2, -1)] ∧
    parseLinesColors false [("gradient_color = notacolor,green").toList] =
      parseLinesColors false [] := by
  obtain ⟨h1, h2, h3, h4⟩ := configParser_never_empty_ramp
  exact ⟨h2 [] (by simp [parseLinesColors]),
    h3 (("gradient_color = notacolor,green").toList) [] (by decide) (by decide)⟩

/-- One particle of `drawGalaxy` (`visualizer.cpp` lines 411-416). -/
structure Particle where
  x : ℚ
  y : ℚ
  vx : ℚ
  vy : ℚ
  life : ℚ
  initial_amplitude : ℚ

/-- The per-tick particle mutation of `drawGalaxy` (`visualizer.cpp`
lines 453-456): advance by velocity, add the constant downward bias
`0.05` to `vy`, subtract the life decay `0.03`. -/
def updateParticle (p : Particle) : Particle :=
  { x := p.x + p.vx, y := p.y + p.vy, vx := p.vx, vy := p.vy + 1/20,
    life := p.life - 3/100, initial_amplitude := p.initial_amplitude }

/-- `max_particles` from `visualizer.cpp` line 424. -/
def max_particles : Nat := 1000

/-- One tick of `drawGalaxy` (`visualizer.cpp` lines 418-467) acting on
the live particle set.  The mono RMS is abstracted as the `amp` input
(the code clamps it to `[0,1]`, line 435) and the random draws of the
spawn loop are abstracted as the `candidates` list; the loop guard
`particles.size() < max_particles` caps how many are actually pushed.
After spawning, every particle is advanced and kept only when its life is
still positive and its position lies inside `[0,width) × [0,height)`. -/
def drawGalaxyStep (particles : List Particle) (audio_active : Bool) (amp : ℚ)
    (candidates : List Particle) (width height : ℤ) : List Particle :=
  let a := max 0 (min 1 amp)
  let afterSpawn :=
    if audio_active ∧ (1/20 : ℚ) < a then
      particles ++ candidates.take
        (min (⌊(max_particles : ℚ) * (1/20) * a⌋).toNat
          (max_particles - particles.length))
    else particles
  (afterSpawn.map updateParticle).filter fun p =>
    decide (0 < p.life) && decide (0 ≤ p.x) && decide (p.x < (width : ℚ)) &&
      decide (0 ≤ p.y) && decide (p.y < (height : ℚ))

/-- C10: after every `drawGalaxy` tick starting from a live set of at
most 1000 particles, every retained particle has strictly positive life
and position inside the visible area, and the live set still has at most
1000 particles. -/
theorem drawGalaxy_invariants (particles : List Particle) (audio_active : Bool)
    (amp : ℚ) (candidates : List Particle) (width height : ℤ)
    (h : particles.length ≤ max_particles) :
    (∀ p ∈ drawGalaxyStep particles audio_active amp candidates width height,
        0 < p.life ∧ 0 ≤ p.x ∧ p.x < (width : ℚ) ∧ 0 ≤ p.y ∧ p.y < (height : ℚ)) ∧
    (drawGalaxyStep particles audio_active amp candidates width height).length
      ≤ max_particles := by
  constructor
  · intro p hp
    have hmem := List.mem_filter.mp hp
    have hb := hmem.2
    simp only [Bool.and_eq_true, decide_eq_true_eq] at hb
    exact ⟨hb.1.1.1.1, hb.1.1.1.2, hb.1.1.2, hb.1.2, hb.2⟩
  · simp only [drawGalaxyStep]
    split
    · refine le_trans (List.length_filter_le _ _) ?_
      rw [List.length_map, List.length_append, List.length_take]
      simp only [max_particles] at h ⊢
      omega
    · refine le_trans (List.length_filter_le _ _) ?_
      rw [List.length_map]
      exact h

/-- Witness for C10: a single spawned candidate on an active high-energy
tick, on an 80×24 area, starting from an empty live set. -/
theorem drawGalaxy_invariants_witness :
    (∀ p ∈ drawGalaxyStep [] true 1 [⟨1, 1, 0, 0, 1, 1⟩] 80 24,
        0 < p.life ∧ 0 ≤ p.x ∧ p.x < (80 : ℚ) ∧ 0 ≤ p.y ∧ p.y < (24 : ℚ)) ∧
    (drawGalaxyStep [] true 1 [⟨1, 1, 0, 0, 1, 1⟩] 80 24).length ≤ max_particles :=
  drawGalaxy_invariants [] true 1 [⟨1, 1, 0, 0, 1, 1⟩] 80 24 (by decide)

/-- The all-silent frame the main loop substitutes whenever the stream is
inactive (`oscilloscope.cpp` lines 699-701). -/
def silentFrame : List ℤ := List.replicate BUFFER_FRAMES 0

/-- Getting any index of a constant list with the same default returns
that constant. -/
theorem getD_replicate_self {α : Type} (a : α) :
    ∀ (n i : Nat), (List.replicate n a).getD i a = a := by
  intro n
  induction n with
  | zero => intro i; rfl
  | succ n ih =>
    intro i
    cases i with
    | zero => rfl
    | succ i => exact ih i

/-- The state update of `getFadedColorPairID` (`visualizer.cpp` lines
296-302): move `lastDecay` toward the current amplitude by at most
`decay_rate` per tick. -/
def fadeStep (decay_rate currentAmplitude lastDecay : ℚ) : ℚ :=
  if currentAmplitude > lastDecay then min currentAmplitude (lastDecay + decay_rate)
  else max currentAmplitude (lastDecay - decay_rate)

/-- The RMS level of `drawVuMeter`'s `VU_RMS` branch (`visualizer.cpp`
lines 515-521): `sqrt(sum of squares / BUFFER_FRAMES) / 32767`. -/
def vuRmsLevel (data : List ℤ) : ℚ :=
  sqrtQ ((data.foldl (fun (acc : ℚ) (s : ℤ) => acc + (s : ℚ) * (s : ℚ)) 0) /
    (BUFFER_FRAMES : ℚ)) / 32767

/-- The persistent state of `drawVuMeter` (`visualizer.cpp` lines
498-499): two smoothed levels and two color-decay values. -/
structure VuState where
  leftLevel : ℚ
  rightLevel : ℚ
  leftColorDecay : ℚ
  rightColorDecay : ℚ

/-- The state evolution of one `drawVuMeter` call (`visualizer.cpp` lines
497-529): force-reset on an inactive stream, then the peak or RMS
analysis, the rise/fall level update (rise `0.6`, fall `decay__factor`,
passed here as `d`) and the color-decay update (rate `0.025`). -/
def drawVuMeterState (usePeak : Bool) (d : ℚ) (s : VuState) (audio_active : Bool)
    (leftData rightData : List ℤ) : VuState :=
  let s0 := if audio_active then s else ⟨0, 0, 0, 0⟩
  let lcur := if usePeak then vuPeakLevel leftData else vuRmsLevel leftData
  let rcur := if usePeak then vuPeakLevel rightData else vuRmsLevel rightData
  let ll := levelStep (3/5) d lcur s0.leftLevel
  let rl := levelStep (3/5) d rcur s0.rightLevel
  ⟨ll, rl, fadeStep (1/40) ll s0.leftColorDecay, fadeStep (1/40) rl s0.rightColorDecay⟩

/-- Per-bar RMS of `drawBarGraph` (`visualizer.cpp` lines 572-581):
samples `bar*256/32 ≤ i < (bar+1)*256/32` (also guarded by
`i < BUFFER_FRAMES`), each divided by 32768 before squaring. -/
def barRms (data : List ℤ) (bar : Nat) : ℚ :=
  let start := bar * BUFFER_FRAMES / 32
  let stop := min ((bar + 1) * BUFFER_FRAMES / 32) BUFFER_FRAMES
  let cnt := stop - start
  let sumSq := ((List.range cnt).map fun j =>
    ((data.getD (start + j) 0 : ℚ) / 32768) * ((data.getD (start + j) 0 : ℚ) / 32768)).sum
  if 0 < cnt then sqrtQ (sumSq / (cnt : ℚ)) else 0

/-- The state evolution of one `drawBarGraph` channel (`visualizer.cpp`
lines 553-601): force-reset of the 32 bar heights and 32 color-decay
values on an inactive stream, then per-bar rise/fall (rise `0.6`, fall
`d`) and color-decay (rate `0.025`) updates. -/
def drawBarGraphState (d : ℚ) (audio_active : Bool)
    (peakHeights colorDecay : List ℚ) (data : List ℤ) : List ℚ × List ℚ :=
  let hs := if audio_active then peakHeights else List.replicate 32 0
  let cs := if audio_active then colorDecay else List.replicate 32 0
  let newH := (List.range 32).map fun bar =>
    levelStep (3/5) d (barRms data bar) (hs.getD bar 0)
  let newC := (List.range 32).map fun bar =>
    fadeStep (1/40) (newH.getD bar 0) (cs.getD bar 0)
  (newH, newC)

/-- The mono sample of `drawEclipse` (`visualizer.cpp` line 643):
average of the two channels. -/
def monoSample (leftData rightData : List ℤ) (j : Nat) : ℚ :=
  ((leftData.getD j 0 : ℚ) + (rightData.getD j 0 : ℚ)) / 2

/-- The per-point mono RMS of `drawEclipse` (`visualizer.cpp` lines
638-647): samples `i*256/128 ≤ j < (i+1)*256/128`, normalized by 32767. -/
def eclipseRms (leftData rightData : List ℤ) (i : Nat) : ℚ :=
  let start := i * BUFFER_FRAMES / 128
  let stop := (i + 1) * BUFFER_FRAMES / 128
  let cnt := stop - start
  let sumSq := ((List.range cnt).map fun j =>
    monoSample leftData rightData (start + j) *
      monoSample leftData rightData (start + j)).sum
  if 0 < cnt then sqrtQ (sumSq / (cnt : ℚ)) / 32767 else 0

/-- One circular neighbor-averaging pass of `drawEclipse`
(`visualizer.cpp` lines 655-661): `0.25 / 0.5 / 0.25` weights. -/
def eclipseSmoothPass (v : List ℚ) : List ℚ :=
  (List.range 128).map fun i =>
    let prev := if i = 0 then 127 else i - 1
    let next := if i = 127 then 0 else i + 1
    v.getD prev 0 * (1/4) + v.getD i 0 * (1/2) + v.getD next 0 * (1/4)

/-- The state evolution of one `drawEclipse` call (`visualizer.cpp` lines
629-663): per-point rise/fall (rise `0.5`, fall `decay__factor`, here
`d`) followed by two smoothing passes.  There is no `audio_active`
parameter and no reset in the source. -/
def drawEclipseState (d : ℚ) (pointAmplitudes : List ℚ)
    (leftData rightData : List ℤ) : List ℚ :=
  let upd := (List.range 128).map fun i =>
    let current_rms := eclipseRms leftData rightData i
    let a := pointAmplitudes.getD i 0
    if current_rms > a then a + (current_rms - a) * (1/2) else max 0 (a - d)
  eclipseSmoothPass (eclipseSmoothPass upd)

/-- Getting an in-range index of a constant list returns that constant,
for any default. -/
theorem getD_replicate_of_lt {α : Type} (c dflt : α) :
    ∀ (n i : Nat), i < n → (List.replicate n c).getD i dflt = c := by
  intro n
  induction n with
  | zero => intro i hi; omega
  | succ n ih =>
    intro i hi
    cases i with
    | zero => rfl
    | succ i => exact ih i (by omega)

/-- Folding the sum of squares over silence leaves the accumulator. -/
theorem sumSqFold_replicate_zero :
    ∀ (n : Nat) (acc : ℚ),
      (List.replicate n (0 : ℤ)).foldl (fun (acc : ℚ) (s : ℤ) => acc + (s : ℚ) * (s : ℚ)) acc = acc := by
  intro n
  induction n with
  | zero => intro acc; rfl
  | succ n ih =>
    intro acc
    rw [List.replicate_succ, List.foldl_cons]
    simpa using ih acc

theorem vuPeakLevel_silent : vuPeakLevel silentFrame = 0 := by
  have h : peakAccum silentFrame = 0 :=
    peakAccum_replicate_zero BUFFER_FRAMES 0 le_rfl
  rw [vuPeakLevel, h]
  norm_num

theorem vuRmsLevel_silent : vuRmsLevel silentFrame = 0 := by
  rw [vuRmsLevel, silentFrame, sumSqFold_replicate_zero]
  norm_num [sqrtQ_zero]

theorem levelStep_zero_zero (rf d : ℚ) (hd : 0 ≤ d) : levelStep rf d 0 0 = 0 := by
  simp only [levelStep]
  rw [if_neg (by norm_num)]
  rw [zero_sub, max_eq_left (by linarith)]

theorem fadeStep_zero_zero : fadeStep (1/40) 0 0 = 0 := by
  simp only [fadeStep]
  rw [if_neg (by norm_num)]
  rw [zero_sub, max_eq_left (by norm_num)]

theorem barRms_silent (bar : Nat) : barRms silentFrame bar = 0 := by
  simp only [barRms, silentFrame]
  have hz : ∀ j : Nat, ((List.replicate BUFFER_FRAMES (0 : ℤ)).getD j 0 : ℚ) = 0 := by
    intro j
    rw [getD_replicate_self]
    norm_num
  simp only [hz]
  norm_num [sqrtQ_zero]

theorem eclipseRms_silent (i : Nat) : eclipseRms silentFrame silentFrame i = 0 := by
  simp only [eclipseRms, monoSample, silentFrame]
  have hz : ∀ j : Nat, ((List.replicate BUFFER_FRAMES (0 : ℤ)).getD j 0 : ℚ) = 0 := by
    intro j
    rw [getD_replicate_self]
    norm_num
  simp only [hz]
  norm_num [sqrtQ_zero]

/-- Mapping a constant over any list gives a replicate. -/
theorem map_const_eq_replicate {α β : Type} (c : β) :
    ∀ l : List α, (l.map fun _ => c) = List.replicate l.length c := by
  intro l
  induction l with
  | nil => rfl
  | cons a l ih => simp [List.replicate_succ, ih]

/-- The neighbor-averaging pass fixes constant amplitude vectors. -/
theorem eclipseSmoothPass_replicate (c : ℚ) :
    eclipseSmoothPass (List.replicate 128 c) = List.replicate 128 c := by
  simp only [eclipseSmoothPass]
  have h1 : ∀ i ∈ List.range 128,
      ((List.replicate 128 c).getD (if i = 0 then 127 else i - 1) 0 * (1/4) +
        (List.replicate 128 c).getD i 0 * (1/2) +
        (List.replicate 128 c).getD (if i = 127 then 0 else i + 1) 0 * (1/4)) = c := by
    intro i hi
    have hi128 := List.mem_range.mp hi
    rw [getD_replicate_of_lt c 0 128 _ (by split <;> omega),
      getD_replicate_of_lt c 0 128 i hi128,
      getD_replicate_of_lt c 0 128 _ (by split <;> omega)]
    ring
  rw [List.map_congr_left h1, map_const_eq_replicate, List.length_range]

/-- C8 counterexample: with the default decay `0.025`, an Eclipse-mode
tick on an inactive stream (silent substituted frame) from uniform
amplitude `1/2` leaves every point at `19/40 ≠ 0` — the state is not
force-reset to zero before drawing, so the mode shows stale non-zero
levels while disconnected. -/
theorem streamInactive_eclipse_not_reset_counterexample :
    ¬ (drawEclipseState (1/40) (List.replicate 128 (1/2)) silentFrame silentFrame =
        List.replicate 128 0) := by
  have hrep : drawEclipseState (1/40) (List.replicate 128 (1/2)) silentFrame silentFrame =
      List.replicate 128 (19/40) := by
    simp only [drawEclipseState]
    have hupd : ∀ i ∈ List.range 128,
        (if eclipseRms silentFrame silentFrame i > (List.replicate 128 (1/2 : ℚ)).getD i 0 then
          (List.replicate 128 (1/2 : ℚ)).getD i 0 +
            (eclipseRms silentFrame silentFrame i - (List.replicate 128 (1/2 : ℚ)).getD i 0) * (1/2)
        else max 0 ((List.replicate 128 (1/2 : ℚ)).getD i 0 - 1/40)) = (19/40 : ℚ) := by
      intro i hi
      have hi128 := List.mem_range.mp hi
      rw [eclipseRms_silent, getD_replicate_of_lt _ 0 128 i hi128]
      rw [if_neg (by norm_num)]
      rw [max_eq_right (by norm_num)]
      norm_num
    rw [List.map_congr_left hupd, map_const_eq_replicate, List.length_range,
      eclipseSmoothPass_replicate, eclipseSmoothPass_replicate]
  intro h
  rw [hrep] at h
  have h0 := congrArg (fun l => l.getD 0 (0 : ℚ)) h
  simp only [getD_replicate_of_lt _ _ 128 0 (by omega)] at h0
  norm_num at h0

/-- C8 amended: on a stream-inactive tick (silent substituted frames),
the VU-meter state is force-reset and ends the tick all-zero for either
analysis mode; each bar-graph channel's 32 heights and 32 color-decay
values likewise end the tick all-zero; but the Eclipse mode, which has no
reset, merely applies one fall step `max 0 (a - d)` to each smoothed
amplitude (followed by its two smoothing passes). -/
theorem streamInactive_reset_behavior (d : ℚ) (hd : 0 ≤ d) :
    (∀ (usePeak : Bool) (s : VuState),
        drawVuMeterState usePeak d s false silentFrame silentFrame = ⟨0, 0, 0, 0⟩) ∧
    (∀ hs cs : List ℚ,
        drawBarGraphState d false hs cs silentFrame =
          (List.replicate 32 0, List.replicate 32 0)) ∧
    (∀ amps : List ℚ, amps.length = 128 → (∀ a ∈ amps, 0 ≤ a) →
        drawEclipseState d amps silentFrame silentFrame =
          eclipseSmoothPass (eclipseSmoothPass (amps.map fun a => max 0 (a - d)))) := by
  refine ⟨?_, ?_, ?_⟩
  · intro usePeak s
    simp only [drawVuMeterState, Bool.false_eq_true, if_false]
    have hcur : (if usePeak then vuPeakLevel silentFrame else vuRmsLevel silentFrame) = 0 := by
      cases usePeak <;> simp [vuPeakLevel_silent, vuRmsLevel_silent]
    rw [hcur]
    rw [levelStep_zero_zero _ d hd, fadeStep_zero_zero]
  · intro hs cs
    simp only [drawBarGraphState, Bool.false_eq_true, if_false]
    have hH : ((List.range 32).map fun bar =>
        levelStep (3/5) d (barRms silentFrame bar) ((List.replicate 32 (0:ℚ)).getD bar 0)) =
        List.replicate 32 0 := by
      have h1 : ∀ bar ∈ List.range 32,
          levelStep (3/5) d (barRms silentFrame bar) ((List.replicate 32 (0:ℚ)).getD bar 0) =
            (0 : ℚ) := by
        intro bar _
        rw [barRms_silent, getD_replicate_self, levelStep_zero_zero _ d hd]
      rw [List.map_congr_left h1, map_const_eq_replicate, List.length_range]
    rw [hH]
    have hC : ((List.range 32).map fun bar =>
        fadeStep (1/40) ((List.replicate 32 (0:ℚ)).getD bar 0)
          ((List.replicate 32 (0:ℚ)).getD bar 0)) = List.replicate 32 0 := by
      have h1 : ∀ bar ∈ List.range 32,
          fadeStep (1/40) ((List.replicate 32 (0:ℚ)).getD bar 0)
            ((List.replicate 32 (0:ℚ)).getD bar 0) = (0 : ℚ) := by
        intro bar _
        rw [getD_replicate_self, fadeStep_zero_zero]
      rw [List.map_congr_left h1, map_const_eq_replicate, List.length_range]
    rw [hC]
  · intro amps hlen hpos
    simp only [drawEclipseState]
    have hupd : ((List.range 128).map fun i =>
        if eclipseRms silentFrame silentFrame i > amps.getD i 0 then
          amps.getD i 0 + (eclipseRms silentFrame silentFrame i - amps.getD i 0) * (1/2)
        else max 0 (amps.getD i 0 - d)) = amps.map fun a => max 0 (a - d) := by
      apply List.ext_getElem
      · simp [hlen]
      · intro i h1 h2
        simp only [List.getElem_map, List.getElem_range]
        have hi128 : i < 128 := by simpa using h1
        have hilen : i < amps.length := by omega
        have hgetD : amps.getD i 0 = amps[i] := List.getD_eq_getElem amps 0 hilen
        rw [eclipseRms_silent, hgetD]
        rw [if_neg (by simpa using (hpos amps[i] (List.getElem_mem hilen)).not_lt)]
    rw [hupd]

/-- Witness for the amended C8 at the default decay `0.025`: a VU state
of all ones, bar states of all ones, and the uniform `1/2` Eclipse
amplitudes, each on an inactive tick. -/
theorem streamInactive_reset_behavior_witness :
    drawVuMeterState true (1/40) ⟨1, 1, 1, 1⟩ false silentFrame silentFrame = ⟨0, 0, 0, 0⟩ ∧
    drawBarGraphState (1/40) false (List.replicate 32 1) (List.replicate 32 1) silentFrame =
      (List.replicate 32 0, List.replicate 32 0) ∧
    drawEclipseState (1/40) (List.replicate 128 (1/2)) silentFrame silentFrame =
      eclipseSmoothPass (eclipseSmoothPass
        ((List.replicate 128 (1/2 : ℚ)).map fun a => max 0 (a - 1/40))) := by
  obtain ⟨h1, h2, h3⟩ := streamInactive_reset_behavior (1/40) (by norm_num)
  exact ⟨h1 true ⟨1, 1, 1, 1⟩, h2 (List.replicate 32 1) (List.replicate 32 1),
    h3 (List.replicate 128 (1/2)) (by simp)
      (fun a ha => by rw [List.eq_of_mem_replicate ha]; norm_num)⟩
